import Mathlib

/- Shallow embedding of the resilient invocation layer of the repository:
   the OpenRouter model manager (metrics, health scoring, selection, rate
   limiting, request recording) and the error-handling system (circuit
   breaker, retry policy).  Python floats are modelled as exact rationals
   and wall-clock timestamps as rationals (seconds); network I/O
   (model discovery, the HTTP test call) is outside the embedded state. -/

namespace ResilientCore

/-! ## Model manager: `openrouter_model_manager.py` -/

/-- Status enum of a managed model (`ModelStatus`). -/
inductive ModelStatus where
  | AVAILABLE
  | UNAVAILABLE
  | RATE_LIMITED
  | ERROR
  | TESTING
deriving DecidableEq, Repr

/-- Performance metrics for a model (`ModelMetrics`).  Timestamps are
rationals standing for `datetime.now()` values in seconds. -/
structure ModelMetrics where
  total_requests : Nat := 0
  successful_requests : Nat := 0
  failed_requests : Nat := 0
  average_response_time : Rat := 0
  last_success : Option Rat := none
  last_failure : Option Rat := none
  consecutive_failures : Nat := 0
  error_rate : Rat := 0
deriving DecidableEq, Repr

/-- Embedding of `ModelMetrics._update_error_rate`. -/
def ModelMetrics.update_error_rate (m : ModelMetrics) : ModelMetrics :=
  if m.total_requests > 0 then
    { m with error_rate := (m.failed_requests : Rat) / (m.total_requests : Rat) }
  else m

/-- Embedding of `ModelMetrics.update_success`; `now` stands for `datetime.now()`. -/
def ModelMetrics.update_success (m : ModelMetrics) (now : Rat) (response_time : Rat) :
    ModelMetrics :=
  let total := m.total_requests + 1
  let avg :=
    if total = 1 then response_time
    else (m.average_response_time * ((total : Rat) - 1) + response_time) / (total : Rat)
  ModelMetrics.update_error_rate
    { m with
      total_requests := total
      successful_requests := m.successful_requests + 1
      last_success := some now
      consecutive_failures := 0
      average_response_time := avg }

/-- Embedding of `ModelMetrics.update_failure`; `now` stands for `datetime.now()`. -/
def ModelMetrics.update_failure (m : ModelMetrics) (now : Rat) : ModelMetrics :=
  ModelMetrics.update_error_rate
    { m with
      total_requests := m.total_requests + 1
      failed_requests := m.failed_requests + 1
      last_failure := some now
      consecutive_failures := m.consecutive_failures + 1 }

/-- A free model entry (`FreeModel`).  `pricing` is the prompt/completion
price mapping. -/
structure FreeModel where
  id : String
  name : String
  description : String := ""
  context_length : Nat := 0
  pricing : List (String × Rat) := []
  status : ModelStatus := ModelStatus.AVAILABLE
  metrics : ModelMetrics := {}
  last_checked : Option Rat := none
  rate_limit_rpm : Option Nat := none
deriving DecidableEq, Repr

/-- Price lookup with default 0, mirroring `self.pricing.get(key, 0)`. -/
def FreeModel.price (m : FreeModel) (key : String) : Rat :=
  match m.pricing.find? (fun p => p.1 = key) with
  | some p => p.2
  | none => 0

/-- Embedding of `FreeModel.is_free`. -/
def FreeModel.is_free (m : FreeModel) : Bool :=
  m.price "prompt" = 0 && m.price "completion" = 0

/-- Embedding of `FreeModel.health_score`; `now` stands for `datetime.now()` used for the
recency bonus. -/
def FreeModel.health_score (m : FreeModel) (now : Rat) : Rat :=
  if m.status = ModelStatus.UNAVAILABLE then 0
  else
    let success_rate : Rat := 1 - m.metrics.error_rate
    let failure_penalty : Rat := min 0.5 ((m.metrics.consecutive_failures : Rat) * 0.1)
    let time_bonus : Rat :=
      match m.metrics.last_success with
      | none => 0
      | some t => max 0 (0.2 * (1 - (now - t) / 3600))
    let speed_penalty : Rat := min 0.3 (max 0 ((m.metrics.average_response_time - 2.0) * 0.1))
    let score := success_rate - failure_penalty + time_bonus - speed_penalty
    max 0 (min 1 score)

/-- The mutable state of `OpenRouterModelManager` that the embedded
operations touch: the insertion-ordered model registry, the configured
coarse breaker threshold, and the per-model rate-limit window.  Python
dicts are modelled as insertion-ordered association lists with unique
keys. -/
structure ManagerState where
  models : List FreeModel := []
  circuit_breaker_threshold : Nat := 5
  rate_limit_tracker : List (String × List Rat) := []
deriving Repr

/-- Association-list lookup for the rate-limit tracker. -/
def trackerLookup (tr : List (String × List Rat)) (model_id : String) : Option (List Rat) :=
  match tr with
  | [] => none
  | (k, v) :: rest => if k = model_id then some v else trackerLookup rest model_id

/-- Association-list write (`tracker[model_id] = w`): overwrite the existing
entry or insert a new one. -/
def trackerSet (tr : List (String × List Rat)) (model_id : String) (w : List Rat) :
    List (String × List Rat) :=
  match tr with
  | [] => [(model_id, w)]
  | (k, v) :: rest =>
      if k = model_id then (k, w) :: rest else (k, v) :: trackerSet rest model_id w

/-- Dict lookup `self.models.get(model_id)` (keys unique, first match). -/
def findModel (models : List FreeModel) (model_id : String) : Option FreeModel :=
  match models with
  | [] => none
  | m :: rest => if m.id = model_id then some m else findModel rest model_id

/-- In-place mutation of the entry keyed `model_id` (Python mutates the
value object held in the dict). -/
def updateModels (models : List FreeModel) (model_id : String) (f : FreeModel → FreeModel) :
    List FreeModel :=
  match models with
  | [] => []
  | m :: rest =>
      if m.id = model_id then f m :: rest else m :: updateModels rest model_id f

/-- Embedding of `OpenRouterModelManager.check_rate_limits`: prune the window to entries
younger than 60 seconds, then, when the model declares a truthy
`rate_limit_rpm`, compare the pruned count against it.  Returns the updated
state and the boolean result. -/
def checkRateLimits (s : ManagerState) (model_id : String) (now : Rat) :
    ManagerState × Bool :=
  let window0 := (trackerLookup s.rate_limit_tracker model_id).getD []
  let pruned := window0.filter (fun req_time => now - req_time < 60)
  let s1 := { s with rate_limit_tracker := trackerSet s.rate_limit_tracker model_id pruned }
  match findModel s1.models model_id with
  | none => (s1, true)
  | some m =>
    match m.rate_limit_rpm with
    | none => (s1, true)
    | some rpm =>
        if rpm ≠ 0 ∧ pruned.length ≥ rpm then
          ({ s1 with
              models := updateModels s1.models model_id
                (fun x => { x with status := ModelStatus.RATE_LIMITED }) }, false)
        else (s1, true)

/-- Embedding of `OpenRouterModelManager.record_request`: unknown ids are ignored; the
current timestamp is appended to the rate-limit window; a success with a
response time updates the metrics and forces status `AVAILABLE`, anything
else counts as a failure and may trip the coarse breaker.  `recordUpdate`
is the per-model metric/status update performed inside `record_request`,
lifted out so theorems can name it. -/
def recordUpdate (threshold : Nat) (success : Bool) (response_time : Option Rat)
    (now : Rat) (m : FreeModel) : FreeModel :=
  match success, response_time with
  | true, some rt =>
      let m1 := { m with metrics := m.metrics.update_success now rt }
      if m1.status ≠ ModelStatus.AVAILABLE then { m1 with status := ModelStatus.AVAILABLE }
      else m1
  | _, _ =>
      let m1 := { m with metrics := m.metrics.update_failure now }
      if m1.metrics.consecutive_failures ≥ threshold then
        { m1 with status := ModelStatus.UNAVAILABLE }
      else m1

def recordRequest (s : ManagerState) (model_id : String) (success : Bool)
    (response_time : Option Rat) (now : Rat) : ManagerState :=
  match findModel s.models model_id with
  | none => s
  | some _ =>
    let tracker := trackerSet s.rate_limit_tracker model_id
      (((trackerLookup s.rate_limit_tracker model_id).getD []) ++ [now])
    { s with
      rate_limit_tracker := tracker
      models := updateModels s.models model_id
        (recordUpdate s.circuit_breaker_threshold success response_time now) }

/-- Eligibility filter of `get_best_model`: status `AVAILABLE` and id not in
the exclusion set (an empty exclusion set excludes nothing, matching the
falsy `None`/empty-set check in Python). -/
def eligibleModel (exclude : List String) (m : FreeModel) : Bool :=
  m.status = ModelStatus.AVAILABLE && !(exclude.contains m.id)

/-- Python `max(xs, key=score)` on a nonempty list: fold keeping the
current best, replacing it only on a strictly greater key, so the first
maximal element wins. -/
def maxByScore (now : Rat) (m : FreeModel) (ms : List FreeModel) : FreeModel :=
  ms.foldl (fun best x => if x.health_score now > best.health_score now then x else best) m

/-- Embedding of `OpenRouterModelManager.get_best_model` (selection logic; the periodic
re-discovery it may trigger is network I/O outside the embedded state). -/
def getBestModel (s : ManagerState) (exclude : List String) (now : Rat) :
    Option FreeModel :=
  match s.models.filter (eligibleModel exclude) with
  | [] => none
  | m :: ms => some (maxByScore now m ms)

/-- Reference selector written from the words of the spec: the first element of
the list attaining the maximal health score, `none` on the empty list.
Used only to compare `getBestModel` against the specified tie-breaking. -/
def firstMaxSpec (now : Rat) : List FreeModel → Option FreeModel
  | [] => none
  | m :: ms =>
    match firstMaxSpec now ms with
    | none => some m
    | some b => if b.health_score now > m.health_score now then some b else some m

/-! ## Error handling system: `error_handling_system.py` -/

/-- Error severities (`ErrorSeverity`). -/
inductive ErrorSeverity where
  | LOW
  | MEDIUM
  | HIGH
  | CRITICAL
deriving DecidableEq, Repr

/-- Circuit breaker states (`CircuitState`). -/
inductive CircuitState where
  | CLOSED
  | OPEN
  | HALF_OPEN
deriving DecidableEq, Repr

/-- Counter bump for the string-keyed error maps (`dict.get(k, 0) + 1`). -/
def bumpCount (m : List (String × Nat)) (k : String) : List (String × Nat) :=
  match m with
  | [] => [(k, 1)]
  | (k', v) :: rest => if k' = k then (k', v + 1) :: rest else (k', v) :: bumpCount rest k

/-- Counter bump for the severity-keyed error map. -/
def bumpSeverity (m : List (ErrorSeverity × Nat)) (k : ErrorSeverity) :
    List (ErrorSeverity × Nat) :=
  match m with
  | [] => [(k, 1)]
  | (k', v) :: rest => if k' = k then (k', v + 1) :: rest else (k', v) :: bumpSeverity rest k

/-- Error tracking metrics (`ErrorMetrics`). -/
structure ErrorMetrics where
  total_errors : Nat := 0
  errors_by_type : List (String × Nat) := []
  errors_by_severity : List (ErrorSeverity × Nat) := []
  last_error : Option Rat := none
  consecutive_errors : Nat := 0
  recovery_attempts : Nat := 0
  successful_recoveries : Nat := 0
deriving DecidableEq, Repr

/-- Embedding of `ErrorMetrics.record_error`; `now` stands for `datetime.now()`. -/
def ErrorMetrics.record_error (m : ErrorMetrics) (error_type : String)
    (severity : ErrorSeverity) (now : Rat) : ErrorMetrics :=
  { m with
    total_errors := m.total_errors + 1
    errors_by_type := bumpCount m.errors_by_type error_type
    errors_by_severity := bumpSeverity m.errors_by_severity severity
    last_error := some now
    consecutive_errors := m.consecutive_errors + 1 }

/-- Embedding of `ErrorMetrics.record_success`. -/
def ErrorMetrics.record_success (m : ErrorMetrics) : ErrorMetrics :=
  { m with consecutive_errors := 0, successful_recoveries := m.successful_recoveries + 1 }

/-- Embedding of `CircuitBreakerConfig`.  Durations are rationals in seconds. -/
structure CircuitBreakerConfig where
  failure_threshold : Nat := 5
  recovery_timeout : Rat := 60
  success_threshold : Nat := 3
  monitoring_period : Rat := 300
  half_open_max_calls : Nat := 3
deriving DecidableEq, Repr

/-- The mutable fields of a `CircuitBreaker` instance. -/
structure CircuitBreaker where
  config : CircuitBreakerConfig
  state : CircuitState := CircuitState.CLOSED
  failure_count : Nat := 0
  success_count : Nat := 0
  last_failure_time : Option Rat := none
  half_open_calls : Nat := 0
  metrics : ErrorMetrics := {}
deriving DecidableEq, Repr

/-- A freshly constructed breaker (`CircuitBreaker.__init__`). -/
def CircuitBreaker.init (config : CircuitBreakerConfig) : CircuitBreaker :=
  { config := config }

/-- Embedding of `CircuitBreaker._classify_error`. -/
def classify_error (error_type : String) : ErrorSeverity :=
  if error_type = "ConnectionError" ∨ error_type = "TimeoutError" ∨
      error_type = "CircuitBreakerOpenError" then ErrorSeverity.CRITICAL
  else if error_type = "APIError" ∨ error_type = "AuthenticationError" ∨
      error_type = "RateLimitError" then ErrorSeverity.HIGH
  else if error_type = "ValidationError" ∨ error_type = "NotFoundError" then
    ErrorSeverity.MEDIUM
  else ErrorSeverity.LOW

/-- Embedding of `CircuitBreaker._should_attempt_reset`. -/
def CircuitBreaker.should_attempt_reset (cb : CircuitBreaker) (now : Rat) : Bool :=
  match cb.last_failure_time with
  | none => false
  | some t => if now - t ≥ cb.config.recovery_timeout then true else false

/-- Embedding of `CircuitBreaker._on_success`. -/
def CircuitBreaker.on_success (cb : CircuitBreaker) : CircuitBreaker :=
  let cb1 :=
    if cb.state = CircuitState.HALF_OPEN then
      let cb' := { cb with success_count := cb.success_count + 1 }
      if cb'.success_count ≥ cb'.config.success_threshold then
        { cb' with state := CircuitState.CLOSED, failure_count := 0, success_count := 0 }
      else cb'
    else if cb.state = CircuitState.CLOSED then
      { cb with failure_count := cb.failure_count - 1 }
    else cb
  { cb1 with metrics := cb1.metrics.record_success }

/-- Embedding of `CircuitBreaker._on_failure`; `now` stands for `datetime.now()`. -/
def CircuitBreaker.on_failure (cb : CircuitBreaker) (error_type : String) (now : Rat) :
    CircuitBreaker :=
  let cb1 := { cb with
    failure_count := cb.failure_count + 1
    last_failure_time := some now
    metrics := cb.metrics.record_error error_type (classify_error error_type) now }
  if cb1.state = CircuitState.HALF_OPEN then
    { cb1 with state := CircuitState.OPEN, success_count := 0 }
  else if cb1.state = CircuitState.CLOSED ∧
      cb1.failure_count ≥ cb1.config.failure_threshold then
    { cb1 with state := CircuitState.OPEN }
  else cb1

/-- Behaviour of the awaited operation inside `call`: it either returns a
value or raises an exception with the given type name. -/
inductive CallOutcome (α : Type) where
  | success (v : α)
  | failure (error_type : String)

/-- Observable result of `CircuitBreaker.call`: a returned value, the
exception of the operation re-raised, or `CircuitBreakerOpenError` raised by the
gate. -/
inductive CallResult (α : Type) where
  | ok (v : α)
  | opErr (error_type : String)
  | breakerOpen
deriving DecidableEq

/-- Full trace of one `CircuitBreaker.call`: final breaker, result, whether
the operation was actually invoked, and the breaker state at the moment of
invocation (`none` when the gate rejected the call). -/
structure CallTrace (α : Type) where
  cb : CircuitBreaker
  result : CallResult α
  invoked : Bool
  stateAtAttempt : Option CircuitState

/-- Embedding of `CircuitBreaker.call`, step for step: the OPEN gate (with the
timeout-driven transition to HALF_OPEN), the HALF_OPEN admission cap, then
the invocation followed by `_on_success` or `_on_failure`. -/
def CircuitBreaker.call {α : Type} (cb : CircuitBreaker) (now : Rat)
    (outcome : CallOutcome α) : CallTrace α :=
  if cb.state = CircuitState.OPEN ∧ ¬ cb.should_attempt_reset now then
    ⟨cb, CallResult.breakerOpen, false, none⟩
  else
    let cb1 :=
      if cb.state = CircuitState.OPEN then
        { cb with state := CircuitState.HALF_OPEN, half_open_calls := 0 }
      else cb
    if cb1.state = CircuitState.HALF_OPEN ∧
        cb1.half_open_calls ≥ cb1.config.half_open_max_calls then
      ⟨cb1, CallResult.breakerOpen, false, none⟩
    else
      let cb2 :=
        if cb1.state = CircuitState.HALF_OPEN then
          { cb1 with half_open_calls := cb1.half_open_calls + 1 }
        else cb1
      match outcome with
      | CallOutcome.success v =>
          ⟨cb2.on_success, CallResult.ok v, true, some cb2.state⟩
      | CallOutcome.failure e =>
          ⟨cb2.on_failure e now, CallResult.opErr e, true, some cb2.state⟩

/-- Iteration of `n` consecutive failing calls, all at time `t` with error type `e`. -/
def iterateFails (cb : CircuitBreaker) (t : Rat) (e : String) : Nat → CircuitBreaker
  | 0 => cb
  | Nat.succ n => ((iterateFails cb t e n).call t (CallOutcome.failure e : CallOutcome Unit)).cb

/-- Embedding of `RetryPolicy` configuration. -/
structure RetryPolicy where
  max_attempts : Nat := 3
  base_delay : Rat := 1
  max_delay : Rat := 60
  backoff_factor : Rat := 2
  jitter : Bool := true
deriving DecidableEq, Repr

/-- Embedding of `RetryPolicy.get_delay`.  `r` stands for the value drawn from
`random.random()` (in `[0, 1)`); it is ignored when jitter is off. -/
def RetryPolicy.get_delay (p : RetryPolicy) (r : Rat) (attempt : Nat) : Rat :=
  let delay := min (p.base_delay * p.backoff_factor ^ (attempt - 1)) p.max_delay
  if p.jitter then delay * (0.5 + r * 0.5) else delay

/-- One attempt of the retried operation: the value returned, or the type
name of the exception raised. -/
inductive AttemptOutcome (α : Type) where
  | ok (v : α)
  | err (e : String)

/-- The loop body of `RetryPolicy.execute`, indexed by the current attempt
number and the number of remaining attempts (`rest = 0` is the final
attempt, where the loop breaks and re-raises).  Returns the outcome
(`Except.error` models the re-raised exception), the number of times the
operation was invoked, and the number of delay waits performed. -/
def RetryPolicy.executeGo {α : Type} (p : RetryPolicy) (op : Nat → AttemptOutcome α) :
    Nat → Nat → Except String α × Nat × Nat
  | _, 0 => (Except.error "", 0, 0)
  | attempt, Nat.succ rest =>
    match op attempt with
    | AttemptOutcome.ok v => (Except.ok v, 1, 0)
    | AttemptOutcome.err e =>
        if rest = 0 then (Except.error e, 1, 0)
        else
          let r := p.executeGo op (attempt + 1) rest
          (r.1, r.2.1 + 1, r.2.2 + 1)

/-- Embedding of `RetryPolicy.execute`: attempts are numbered 1 to `max_attempts`. -/
def RetryPolicy.execute {α : Type} (p : RetryPolicy) (op : Nat → AttemptOutcome α) :
    Except String α × Nat × Nat :=
  p.executeGo op 1 p.max_attempts

/-- A sequence of recorded successes with latencies `xs`, all at time `t`:
`update_success` folded over the list. -/
def foldSuccesses (m : ModelMetrics) (t : Rat) (xs : List Rat) : ModelMetrics :=
  xs.foldl (fun acc x => acc.update_success t x) m

/-- Sample model used by the witnesses. -/
def sampleModel : FreeModel :=
  { id := "m1", name := "M1", rate_limit_rpm := some 2 }

/-- A sample model currently marked UNAVAILABLE. -/
def sampleUnavailable : FreeModel :=
  { id := "m2", name := "M2", status := ModelStatus.UNAVAILABLE }

/-- A sample manager state holding the two sample models. -/
def sampleState : ManagerState :=
  { models := [sampleModel, sampleUnavailable] }

/-- Sample breaker configuration used by the witnesses (the demo scenario in
the source: threshold 3, one-minute recovery). -/
def sampleConfig : CircuitBreakerConfig :=
  { failure_threshold := 3, recovery_timeout := 60 }

/-- Sample retry policy used by the witnesses. -/
def samplePolicy : RetryPolicy :=
  { max_attempts := 3, base_delay := 1, max_delay := 60, backoff_factor := 2, jitter := true }

/-! ## Helper lemmas -/

@[simp]
theorem update_error_rate_total (m : ModelMetrics) :
    (m.update_error_rate).total_requests = m.total_requests := by
  rw [ModelMetrics.update_error_rate]; split <;> rfl

@[simp]
theorem update_error_rate_successful (m : ModelMetrics) :
    (m.update_error_rate).successful_requests = m.successful_requests := by
  rw [ModelMetrics.update_error_rate]; split <;> rfl

@[simp]
theorem update_error_rate_failed (m : ModelMetrics) :
    (m.update_error_rate).failed_requests = m.failed_requests := by
  rw [ModelMetrics.update_error_rate]; split <;> rfl

@[simp]
theorem update_error_rate_consecutive (m : ModelMetrics) :
    (m.update_error_rate).consecutive_failures = m.consecutive_failures := by
  rw [ModelMetrics.update_error_rate]; split <;> rfl

@[simp]
theorem update_error_rate_last_success (m : ModelMetrics) :
    (m.update_error_rate).last_success = m.last_success := by
  rw [ModelMetrics.update_error_rate]; split <;> rfl

@[simp]
theorem update_error_rate_last_failure (m : ModelMetrics) :
    (m.update_error_rate).last_failure = m.last_failure := by
  rw [ModelMetrics.update_error_rate]; split <;> rfl

@[simp]
theorem update_error_rate_avg (m : ModelMetrics) :
    (m.update_error_rate).average_response_time = m.average_response_time := by
  rw [ModelMetrics.update_error_rate]; split <;> rfl

@[simp]
theorem update_success_total (m : ModelMetrics) (t x : Rat) :
    (m.update_success t x).total_requests = m.total_requests + 1 := by
  simp [ModelMetrics.update_success]

/-- Closed form of the incremental mean update: the new average is the old
virtual sum plus the new observation, divided by the new total count. -/
theorem update_success_avg (m : ModelMetrics) (t x : Rat) :
    (m.update_success t x).average_response_time
      = (m.average_response_time * (m.total_requests : Rat) + x)
        / ((m.total_requests : Rat) + 1) := by
  simp only [ModelMetrics.update_success, update_error_rate_avg]
  split_ifs with h1
  · have h0 : m.total_requests = 0 := by omega
    simp [h0]
  · push_cast
    ring_nf

/-- The average over a fold of successes, relative to an arbitrary starting
metric record. -/
theorem foldSuccesses_avg (t : Rat) (xs : List Rat) (m : ModelMetrics)
    (h : 0 < m.total_requests + xs.length) :
    (foldSuccesses m t xs).average_response_time
      = (m.average_response_time * (m.total_requests : Rat) + xs.sum)
        / ((m.total_requests : Rat) + (xs.length : Rat)) := by
  induction xs generalizing m with
  | nil =>
    have hn : (0 : Rat) < (m.total_requests : Rat) := by
      simp at h
      exact_mod_cast h
    simp only [foldSuccesses, List.foldl_nil, List.sum_nil, List.length_nil, Nat.cast_zero,
      add_zero]
    field_simp
  | cons x rest ih =>
    have hstep : foldSuccesses m t (x :: rest) = foldSuccesses (m.update_success t x) t rest :=
      rfl
    rw [hstep, ih _ (by simp only [update_success_total]; omega)]
    rw [update_success_total, update_success_avg]
    have hne : ((m.total_requests : Rat) + 1) ≠ 0 := by positivity
    push_cast
    rw [div_mul_cancel₀ _ hne]
    rw [List.sum_cons, List.length_cons]
    push_cast
    ring_nf

theorem trackerLookup_trackerSet (tr : List (String × List Rat)) (model_id : String)
    (w : List Rat) : trackerLookup (trackerSet tr model_id w) model_id = some w := by
  induction tr with
  | nil => simp [trackerSet, trackerLookup]
  | cons p rest ih =>
    obtain ⟨k, v⟩ := p
    by_cases h : k = model_id
    · simp [trackerSet, trackerLookup, h]
    · simp [trackerSet, trackerLookup, h, ih]

theorem findModel_updateModels (l : List FreeModel) (model_id : String)
    (f : FreeModel → FreeModel) (hf : ∀ x, (f x).id = x.id) :
    findModel (updateModels l model_id f) model_id = (findModel l model_id).map f := by
  induction l with
  | nil => simp [updateModels, findModel]
  | cons m rest ih =>
    by_cases h : m.id = model_id
    · simp [updateModels, findModel, h, hf]
    · simp [updateModels, findModel, h, ih]

/-! ## Claim theorems -/

/-- C9: recording a request with `success = true` but no response time takes
the failure branch: `failed_requests` and `consecutive_failures` are
incremented, `last_failure` is set, and reaching the configured threshold
marks the model UNAVAILABLE. -/
theorem record_success_without_time_is_failure
    (s : ManagerState) (model_id : String) (now : Rat) (m : FreeModel)
    (hfind : findModel s.models model_id = some m) :
    let r := findModel (recordRequest s model_id true none now).models model_id
    r.map (fun x => x.metrics.failed_requests) = some (m.metrics.failed_requests + 1) ∧
    r.map (fun x => x.metrics.consecutive_failures)
      = some (m.metrics.consecutive_failures + 1) ∧
    r.map (fun x => x.metrics.last_failure) = some (some now) ∧
    (s.circuit_breaker_threshold ≤ m.metrics.consecutive_failures + 1 →
      r.map FreeModel.status = some ModelStatus.UNAVAILABLE) := by
  intro r
  have hid : ∀ x, (recordUpdate s.circuit_breaker_threshold true none now x).id = x.id := by
    intro x
    simp only [recordUpdate]
    split <;> rfl
  have hr : r = some (recordUpdate s.circuit_breaker_threshold true none now m) := by
    show findModel (recordRequest s model_id true none now).models model_id = _
    simp only [recordRequest, hfind]
    rw [findModel_updateModels _ _ _ hid, hfind, Option.map_some']
  rw [hr]
  simp only [Option.map_some', recordUpdate, ModelMetrics.update_failure]
  split_ifs with hthr <;> refine ⟨?_, ?_, ?_, ?_⟩ <;> simp_all [ge_iff_le]

/-- C9 witness: concrete instantiation at `sampleState`. -/
theorem record_success_without_time_is_failure_witness :
    (findModel (recordRequest sampleState "m1" true none 5).models "m1").map
      (fun x => x.metrics.failed_requests) = some 1 :=
  (record_success_without_time_is_failure sampleState "m1" 5 sampleModel (by decide)).1

/-- C10: recording a success with a response time always leaves the status of the model AVAILABLE, whatever it was before — including UNAVAILABLE. -/
theorem record_success_restores_available
    (s : ManagerState) (model_id : String) (now rt : Rat) (m : FreeModel)
    (hfind : findModel s.models model_id = some m) :
    (findModel (recordRequest s model_id true (some rt) now).models model_id).map
      FreeModel.status = some ModelStatus.AVAILABLE := by
  have hid : ∀ x,
      (recordUpdate s.circuit_breaker_threshold true (some rt) now x).id = x.id := by
    intro x
    simp only [recordUpdate]
    split <;> rfl
  have hr : findModel (recordRequest s model_id true (some rt) now).models model_id
      = some (recordUpdate s.circuit_breaker_threshold true (some rt) now m) := by
    simp only [recordRequest, hfind]
    rw [findModel_updateModels _ _ _ hid, hfind, Option.map_some']
  rw [hr]
  simp only [Option.map_some', recordUpdate]
  split <;> simp_all

/-- C10 witness: one recorded success restores the UNAVAILABLE sample model. -/
theorem record_success_restores_available_witness :
    (findModel (recordRequest sampleState "m2" true (some 1) 5).models "m2").map
      FreeModel.status = some ModelStatus.AVAILABLE :=
  record_success_restores_available sampleState "m2" 5 1 sampleUnavailable (by decide)

/-- C2 counterexample: the incremental divisor is `total_requests`, which
counts failures too.  After one failure and then one success with latency 4,
the only observed latency is 4, but `average_response_time` is 2. -/
theorem average_response_time_counts_failures :
    ((({} : ModelMetrics).update_failure 1).update_success 2 4).average_response_time = 2 ∧
    ((({} : ModelMetrics).update_failure 1).update_success 2 4).average_response_time ≠ 4 := by
  constructor <;> norm_num [ModelMetrics.update_failure, ModelMetrics.update_success,
    ModelMetrics.update_error_rate]

/-- C2 (amended): when every recorded outcome is a success,
`average_response_time` equals the mean of the observed latencies (0 when
none); a recorded failure leaves the average unchanged while incrementing
`total_requests`, which is the divisor `n` of the incremental update — so
interleaved failures make the stored average deviate from the latency
mean. -/
theorem average_response_time_spec (t u : Rat) (xs : List Rat) (m : ModelMetrics) :
    (foldSuccesses ({} : ModelMetrics) t xs).average_response_time
      = (if xs.length = 0 then 0 else xs.sum / (xs.length : Rat)) ∧
    (m.update_failure u).average_response_time = m.average_response_time ∧
    (m.update_failure u).total_requests = m.total_requests + 1 := by
  refine ⟨?_, ?_, ?_⟩
  · by_cases hx : xs.length = 0
    · rw [List.length_eq_zero] at hx
      simp [hx, foldSuccesses]
    · have hne : xs ≠ [] := fun he => hx (by simp [he])
      have h := foldSuccesses_avg t xs ({} : ModelMetrics) (by simpa using Nat.pos_of_ne_zero hx)
      rw [h]
      simp [hx, hne]
  · simp [ModelMetrics.update_failure]
  · simp [ModelMetrics.update_failure]

/-- C4: a failed call made while the breaker is HALF_OPEN (and admitted by
the half-open cap) always transitions the breaker to OPEN and resets
`success_count` to 0, for every prior value of `success_count`. -/
theorem half_open_failure_reopens (cb : CircuitBreaker) (now : Rat) (e : String)
    (h : cb.state = CircuitState.HALF_OPEN)
    (hadm : cb.half_open_calls < cb.config.half_open_max_calls) :
    ((cb.call now (CallOutcome.failure e : CallOutcome Unit)).cb.state = CircuitState.OPEN) ∧
    ((cb.call now (CallOutcome.failure e : CallOutcome Unit)).cb.success_count = 0) ∧
    ((cb.call now (CallOutcome.failure e : CallOutcome Unit)).invoked = true) := by
  have hno : ¬ (cb.state = CircuitState.OPEN ∧ ¬ cb.should_attempt_reset now) := by
    simp [h]
  have hns : ¬ cb.state = CircuitState.OPEN := by simp [h]
  refine ⟨?_, ?_, ?_⟩ <;>
    simp [CircuitBreaker.call, hno, hns, h, not_le.mpr hadm, CircuitBreaker.on_failure]

/-- C4 witness: concrete half-open breaker with prior `success_count = 2`. -/
theorem half_open_failure_reopens_witness :
    ((({ config := sampleConfig, state := CircuitState.HALF_OPEN, success_count := 2,
          half_open_calls := 0 } : CircuitBreaker).call 10
        (CallOutcome.failure "ValueError" : CallOutcome Unit)).cb.state
      = CircuitState.OPEN) := by
  exact (half_open_failure_reopens _ 10 "ValueError" rfl (by decide)).1

/-- C5: for attempt `k ≥ 1` the delay without jitter is exactly
`min (base_delay * backoff_factor ^ (k - 1)) max_delay`, and with jitter on
(random draw `r ∈ [0, 1)`) the delay lies in `[0.5, 1.0]` times that
value. -/
theorem retry_delay_formula (p : RetryPolicy) (k : Nat) (r : Rat)
    (hk : 1 ≤ k) (hb : 0 ≤ p.base_delay) (hf : 0 ≤ p.backoff_factor)
    (hm : 0 ≤ p.max_delay) (hr0 : 0 ≤ r) (hr1 : r < 1) :
    (({ p with jitter := false } : RetryPolicy).get_delay r k
      = min (p.base_delay * p.backoff_factor ^ (k - 1)) p.max_delay) ∧
    (p.jitter = true →
      0.5 * min (p.base_delay * p.backoff_factor ^ (k - 1)) p.max_delay ≤ p.get_delay r k ∧
      p.get_delay r k ≤ min (p.base_delay * p.backoff_factor ^ (k - 1)) p.max_delay) := by
  have hd : 0 ≤ min (p.base_delay * p.backoff_factor ^ (k - 1)) p.max_delay :=
    le_min (mul_nonneg hb (pow_nonneg hf _)) hm
  constructor
  · simp [RetryPolicy.get_delay]
  · intro hj
    simp only [RetryPolicy.get_delay, hj, if_true]
    set d := min (p.base_delay * p.backoff_factor ^ (k - 1)) p.max_delay with hdef
    constructor
    · nlinarith [mul_nonneg hd hr0]
    · nlinarith [mul_nonneg hd (by linarith : (0 : Rat) ≤ 1 - r)]

/-- C5 witness: the sample policy at attempt 3 with `r = 1/2`. -/
theorem retry_delay_formula_witness :
    (({ samplePolicy with jitter := false } : RetryPolicy).get_delay (1/2) 3
      = min (samplePolicy.base_delay * samplePolicy.backoff_factor ^ 2)
          samplePolicy.max_delay) := by
  exact (retry_delay_formula samplePolicy 3 (1/2) (by norm_num) (by norm_num [samplePolicy])
    (by norm_num [samplePolicy]) (by norm_num [samplePolicy]) (by norm_num) (by norm_num)).1

/-- C8: holding all other metric fields and the status fixed, `health_score`
is non-increasing in `consecutive_failures`; it is exactly 0 when the status
is UNAVAILABLE; and it always lies in `[0, 1]`. -/
theorem health_score_monotone_bounds (m : FreeModel) (now : Rat) (c1 c2 : Nat)
    (h : c1 ≤ c2) :
    (({ m with metrics := { m.metrics with consecutive_failures := c2 } } :
        FreeModel).health_score now
      ≤ ({ m with metrics := { m.metrics with consecutive_failures := c1 } } :
        FreeModel).health_score now) ∧
    (m.status = ModelStatus.UNAVAILABLE → m.health_score now = 0) ∧
    (0 ≤ m.health_score now ∧ m.health_score now ≤ 1) := by
  refine ⟨?_, ?_, ?_, ?_⟩
  · by_cases hs : m.status = ModelStatus.UNAVAILABLE
    · simp [FreeModel.health_score, hs]
    · simp only [FreeModel.health_score, hs, if_neg, if_false]
      apply max_le_max (le_refl (0 : Rat))
      apply min_le_min (le_refl (1 : Rat))
      have hc : ((c1 : Rat)) ≤ (c2 : Rat) := by exact_mod_cast h
      have hmin : min (0.5 : Rat) ((c1 : Rat) * 0.1) ≤ min (0.5 : Rat) ((c2 : Rat) * 0.1) := by
        apply min_le_min (le_refl _)
        nlinarith
      linarith
  · intro hs
    simp [FreeModel.health_score, hs]
  · rw [FreeModel.health_score]
    split
    · exact le_refl 0
    · exact le_max_left 0 _
  · rw [FreeModel.health_score]
    split
    · norm_num
    · exact max_le (by norm_num) (min_le_left _ _)

/-- C8 witness: the sample model at 1 and 3 consecutive failures. -/
theorem health_score_monotone_bounds_witness :
    ({ sampleModel with
        metrics := { sampleModel.metrics with consecutive_failures := 3 } } :
      FreeModel).health_score 0
      ≤ ({ sampleModel with
            metrics := { sampleModel.metrics with consecutive_failures := 1 } } :
          FreeModel).health_score 0 := by
  exact (health_score_monotone_bounds sampleModel 0 1 3 (by norm_num)).1

/-- C1 counterexample: with the sample state (model "m1" declares capacity
2, empty window) a check at time 100 returns true, yet the stored window for
"m1" is still empty — the current timestamp was not appended, contradicting
the claim that a true check appends it. -/
theorem rate_limit_check_no_append :
    (checkRateLimits sampleState "m1" 100).2 = true ∧
    trackerLookup (checkRateLimits sampleState "m1" 100).1.rate_limit_tracker "m1"
      = some ([] : List Rat) := by
  constructor <;> rfl

/-- C1 (amended): `check_rate_limits` first prunes the window to timestamps
younger than 60 seconds; for a model with a declared positive per-minute
capacity it marks the model RATE_LIMITED and returns false when the pruned
count has reached the capacity, and returns true otherwise — but in neither
case does it append the current timestamp: the stored window after the call
is exactly the pruned window (the timestamp is appended by the separate
`record_request` operation). -/
theorem rate_limit_check_spec (s : ManagerState) (model_id : String) (now : Rat)
    (m : FreeModel) (rpm : Nat)
    (hfind : findModel s.models model_id = some m)
    (hrpm : m.rate_limit_rpm = some rpm) (hpos : 0 < rpm) :
    let pruned := ((trackerLookup s.rate_limit_tracker model_id).getD []).filter
      (fun req_time => now - req_time < 60)
    let r := checkRateLimits s model_id now
    (trackerLookup r.1.rate_limit_tracker model_id = some pruned) ∧
    (rpm ≤ pruned.length →
      r.2 = false ∧
      (findModel r.1.models model_id).map FreeModel.status
        = some ModelStatus.RATE_LIMITED) ∧
    (pruned.length < rpm → r.2 = true ∧ r.1.models = s.models) := by
  intro pruned r
  have hfind1 : ∀ tr, findModel ({ s with rate_limit_tracker := tr } :
      ManagerState).models model_id = some m := fun _ => hfind
  by_cases hcase : rpm ≤ pruned.length
  · have hcond : rpm ≠ 0 ∧ pruned.length ≥ rpm := ⟨by omega, hcase⟩
    have hr : r = ({ s with
        rate_limit_tracker := trackerSet s.rate_limit_tracker model_id pruned,
        models := updateModels s.models model_id
          (fun x => { x with status := ModelStatus.RATE_LIMITED }) }, false) := by
      simp only [r, checkRateLimits, hfind1, hrpm, if_pos hcond]
    rw [hr]
    refine ⟨trackerLookup_trackerSet _ _ _, fun _ => ⟨rfl, ?_⟩, fun hlt => absurd hcase (by omega)⟩
    rw [findModel_updateModels s.models model_id
      (fun x => { x with status := ModelStatus.RATE_LIMITED }) (fun x => rfl), hfind]
    rfl
  · have hcond : ¬ (rpm ≠ 0 ∧ pruned.length ≥ rpm) := by
      intro hc
      exact hcase hc.2
    have hr : r = ({ s with
        rate_limit_tracker := trackerSet s.rate_limit_tracker model_id pruned }, true) := by
      simp only [r, checkRateLimits, hfind1, hrpm, if_neg hcond]
    rw [hr]
    exact ⟨trackerLookup_trackerSet _ _ _, fun hge => absurd hge hcase, fun _ => ⟨rfl, rfl⟩⟩

/-- C1 witness: a state whose window for "m1" holds two fresh timestamps, so
a check at time 30 against capacity 2 reports rate-limited. -/
theorem rate_limit_check_spec_witness :
    (checkRateLimits { models := [sampleModel], rate_limit_tracker := [("m1", [10, 20])] }
      "m1" 30).2 = false := by
  have h := rate_limit_check_spec
    { models := [sampleModel], rate_limit_tracker := [("m1", [10, 20])] }
    "m1" 30 sampleModel 2 (by rfl) (by rfl) (by norm_num)
  exact (h.2.1 (by norm_num [trackerLookup, List.filter])).1

/-- Unfolding lemma: `firstMaxSpec` on a cons cell, written without the inner match. -/
theorem firstMaxSpec_cons (now : Rat) (m : FreeModel) (ms : List FreeModel) :
    firstMaxSpec now (m :: ms)
      = some (match firstMaxSpec now ms with
          | none => m
          | some b => if b.health_score now > m.health_score now then b else m) := by
  cases h : firstMaxSpec now ms with
  | none => simp [firstMaxSpec, h]
  | some b =>
    by_cases hc : m.health_score now < b.health_score now <;> simp [firstMaxSpec, h, hc]

/-- Emptiness lemma: `firstMaxSpec` is `none` exactly on the empty list. -/
theorem firstMaxSpec_eq_none (now : Rat) (l : List FreeModel) :
    firstMaxSpec now l = none ↔ l = [] := by
  cases l with
  | nil => simp [firstMaxSpec]
  | cons m ms => rw [firstMaxSpec_cons]; simp

/-- The element picked by `firstMaxSpec` splits the list into a strict-less
prefix and a less-or-equal suffix: it is the first element attaining the
maximal score. -/
theorem firstMaxSpec_decomp (now : Rat) (l : List FreeModel) (m : FreeModel)
    (h : firstMaxSpec now l = some m) :
    ∃ l₁ l₂, l = l₁ ++ m :: l₂ ∧
      (∀ x ∈ l₁, x.health_score now < m.health_score now) ∧
      (∀ x ∈ l₂, x.health_score now ≤ m.health_score now) := by
  induction l generalizing m with
  | nil => simp [firstMaxSpec] at h
  | cons a rest ih =>
    rw [firstMaxSpec_cons] at h
    cases hrest : firstMaxSpec now rest with
    | none =>
      have hre : rest = [] := (firstMaxSpec_eq_none now rest).mp hrest
      rw [hrest] at h
      simp only [Option.some.injEq] at h
      subst hre
      exact ⟨[], [], by simp [← h], by simp, by simp⟩
    | some b =>
      rw [hrest] at h
      simp only [Option.some.injEq] at h
      obtain ⟨r₁, r₂, hsplit, hlt, hle⟩ := ih b hrest
      have hall : ∀ x ∈ rest, x.health_score now ≤ b.health_score now := by
        intro x hx
        rw [hsplit] at hx
        rcases List.mem_append.mp hx with hx1 | hx2
        · exact le_of_lt (hlt x hx1)
        · rcases List.mem_cons.mp hx2 with hxb | hx3
          · exact le_of_eq (congrArg (fun y => FreeModel.health_score y now) hxb)
          · exact hle x hx3
      by_cases hgt : b.health_score now > a.health_score now
      · rw [if_pos hgt] at h
        subst h
        refine ⟨a :: r₁, r₂, by simp [hsplit], ?_, hle⟩
        intro x hx
        rcases List.mem_cons.mp hx with hxa | hx1
        · rw [hxa]; exact hgt
        · exact hlt x hx1
      · rw [if_neg hgt] at h
        subst h
        refine ⟨[], rest, by simp, by simp, ?_⟩
        intro x hx
        exact le_trans (hall x hx) (not_lt.mp hgt)

/-- The fold implementing Python `max(..., key=health_score)` agrees with
the first-maximal reference selector. -/
theorem maxByScore_eq_firstMaxSpec (now : Rat) (m : FreeModel) (ms : List FreeModel) :
    some (maxByScore now m ms) = firstMaxSpec now (m :: ms) := by
  induction ms generalizing m with
  | nil => simp [maxByScore, firstMaxSpec]
  | cons x rest ih =>
    have h1 : maxByScore now m (x :: rest)
        = maxByScore now (if x.health_score now > m.health_score now then x else m) rest := rfl
    rw [h1, ih]
    rw [firstMaxSpec_cons, firstMaxSpec_cons, firstMaxSpec_cons]
    cases hrest : firstMaxSpec now rest <;>
      simp only [Option.some.injEq] <;>
      split_ifs <;>
      first | rfl | (exfalso; linarith)

/-- C7: `get_best_model` returns `none` exactly when no model is both
AVAILABLE and outside the exclusion set; when it returns a model, that model
is an eligible member of the registry and is the first-seen model attaining
the maximal health score among the eligible ones (every earlier eligible
model scores strictly less, every later one at most as much). -/
theorem select_best_spec (s : ManagerState) (exclude : List String) (now : Rat) :
    let elig := s.models.filter (eligibleModel exclude)
    (getBestModel s exclude now = none ↔ elig = []) ∧
    (∀ m, getBestModel s exclude now = some m →
      m ∈ s.models ∧ m.status = ModelStatus.AVAILABLE ∧ exclude.contains m.id = false ∧
      ∃ l₁ l₂, elig = l₁ ++ m :: l₂ ∧
        (∀ x ∈ l₁, x.health_score now < m.health_score now) ∧
        (∀ x ∈ l₂, x.health_score now ≤ m.health_score now)) := by
  intro elig
  have hbest : getBestModel s exclude now = firstMaxSpec now elig := by
    show (match s.models.filter (eligibleModel exclude) with
      | [] => none
      | m :: ms => some (maxByScore now m ms)) = firstMaxSpec now elig
    cases helig : s.models.filter (eligibleModel exclude) with
    | nil => simp [firstMaxSpec, elig, helig]
    | cons a ms =>
      show some (maxByScore now a ms) = firstMaxSpec now elig
      rw [maxByScore_eq_firstMaxSpec]
      simp only [elig, helig]
  constructor
  · rw [hbest]
    exact firstMaxSpec_eq_none now elig
  · intro m hm
    rw [hbest] at hm
    obtain ⟨l₁, l₂, hsplit, hlt, hle⟩ := firstMaxSpec_decomp now elig m hm
    have hmem : m ∈ elig := by
      rw [hsplit]
      exact List.mem_append.mpr (Or.inr (List.mem_cons_self _ _))
    have helig2 := List.mem_filter.mp hmem
    have helig3 : eligibleModel exclude m = true := helig2.2
    simp only [eligibleModel, Bool.and_eq_true, decide_eq_true_eq,
      Bool.not_eq_true'] at helig3
    exact ⟨helig2.1, helig3.1, helig3.2, l₁, l₂, hsplit, hlt, hle⟩

/-- The retry loop never invokes the operation more often than its fuel. -/
theorem executeGo_invocations_le {α : Type} (p : RetryPolicy) (op : Nat → AttemptOutcome α)
    (fuel : Nat) : ∀ attempt, (p.executeGo op attempt fuel).2.1 ≤ fuel := by
  induction fuel with
  | zero => intro attempt; simp [RetryPolicy.executeGo]
  | succ rest ih =>
    intro attempt
    cases h : op attempt with
    | ok v => simp [RetryPolicy.executeGo, h]
    | err e =>
      by_cases hr : rest = 0
      · simp [RetryPolicy.executeGo, h, hr]
      · simp only [RetryPolicy.executeGo, h, hr, if_neg, ite_false]
        have := ih (attempt + 1)
        omega

/-- When every attempt in the window fails, the loop consumes all its fuel,
waits between consecutive attempts only, and re-raises the last error. -/
theorem executeGo_all_fail {α : Type} (p : RetryPolicy) (op : Nat → AttemptOutcome α)
    (e : Nat → String) (fuel : Nat) :
    ∀ attempt, 0 < fuel →
      (∀ j, attempt ≤ j → j < attempt + fuel → op j = AttemptOutcome.err (e j)) →
      p.executeGo op attempt fuel
        = ((Except.error (e (attempt + fuel - 1)) : Except String α), fuel, fuel - 1) := by
  induction fuel with
  | zero => intro attempt h; omega
  | succ rest ih =>
    intro attempt _ hop
    have hthis : op attempt = AttemptOutcome.err (e attempt) :=
      hop attempt le_rfl (by omega)
    by_cases hr : rest = 0
    · subst hr
      simp [RetryPolicy.executeGo, hthis]
    · have ihh := ih (attempt + 1) (by omega) (fun j h1 h2 => hop j (by omega) (by omega))
      have harith : attempt + 1 + rest - 1 = attempt + (rest + 1) - 1 := by omega
      simp only [RetryPolicy.executeGo, hthis, hr, ite_false, ihh, harith]
      have : rest - 1 + 1 = rest + 1 - 1 := by omega
      rw [this]

/-- When the first `fuel - 1` attempts in the window fail and the last one
succeeds, the loop returns the success, invoking the operation once per
attempt with a wait after every failed attempt. -/
theorem executeGo_eventually_ok {α : Type} (p : RetryPolicy) (op : Nat → AttemptOutcome α)
    (v : α) (fuel : Nat) :
    ∀ attempt, 0 < fuel →
      (∀ j, attempt ≤ j → j < attempt + fuel - 1 → ∃ ej, op j = AttemptOutcome.err ej) →
      op (attempt + fuel - 1) = AttemptOutcome.ok v →
      p.executeGo op attempt fuel = (Except.ok v, fuel, fuel - 1) := by
  induction fuel with
  | zero => intro attempt h; omega
  | succ rest ih =>
    intro attempt _ hop hlast
    by_cases hr : rest = 0
    · subst hr
      have : attempt + 1 - 1 = attempt := by omega
      rw [this] at hlast
      simp [RetryPolicy.executeGo, hlast]
    · obtain ⟨ea, hea⟩ := hop attempt le_rfl (by omega)
      have harith : attempt + 1 + rest - 1 = attempt + (rest + 1) - 1 := by omega
      have ihh := ih (attempt + 1) (by omega)
        (fun j h1 h2 => hop j (by omega) (by omega))
        (by rw [harith]; exact hlast)
      simp only [RetryPolicy.executeGo, hea, hr, ite_false, ihh]
      have : rest - 1 + 1 = rest + 1 - 1 := by omega
      rw [this]

/-- C6: with `max_attempts ≥ 1`, `execute` invokes the operation at most
`max_attempts` times; when the first `max_attempts - 1` attempts fail and
the last succeeds it returns the success value with exactly
`max_attempts - 1` delay waits; and when every attempt fails it re-raises
the error of the final attempt unchanged. -/
theorem retry_execute_spec {α : Type} (p : RetryPolicy) (op : Nat → AttemptOutcome α)
    (e : Nat → String) (v : α) (hmax : 1 ≤ p.max_attempts) :
    ((p.execute op).2.1 ≤ p.max_attempts) ∧
    ((∀ j, 1 ≤ j → j < p.max_attempts → op j = AttemptOutcome.err (e j)) →
      op p.max_attempts = AttemptOutcome.ok v →
      p.execute op = (Except.ok v, p.max_attempts, p.max_attempts - 1)) ∧
    ((∀ j, 1 ≤ j → j ≤ p.max_attempts → op j = AttemptOutcome.err (e j)) →
      (p.execute op).1 = Except.error (e p.max_attempts)) := by
  refine ⟨executeGo_invocations_le p op p.max_attempts 1, ?_, ?_⟩
  · intro hfail hlast
    have h1 : 1 + p.max_attempts - 1 = p.max_attempts := by omega
    exact executeGo_eventually_ok p op v p.max_attempts 1 (by omega)
      (fun j hj1 hj2 => ⟨e j, hfail j hj1 (by omega)⟩)
      (by rw [h1]; exact hlast)
  · intro hfail
    have h1 : 1 + p.max_attempts - 1 = p.max_attempts := by omega
    have h := executeGo_all_fail p op e p.max_attempts 1 (by omega)
      (fun j hj1 hj2 => hfail j hj1 (by omega))
    rw [RetryPolicy.execute, h, h1]

/-- C6 witness: with the sample 3-attempt policy and an operation failing on
attempts 1 and 2 then succeeding, execute returns the success with 3
invocations and 2 waits. -/
theorem retry_execute_spec_witness :
    samplePolicy.execute
        (fun j => if j < 3 then AttemptOutcome.err "ConnectionError"
          else AttemptOutcome.ok (0 : Nat))
      = (Except.ok 0, 3, 2) := by
  have h := (retry_execute_spec samplePolicy
    (fun j => if j < 3 then AttemptOutcome.err "ConnectionError"
      else AttemptOutcome.ok (0 : Nat))
    (fun _ => "ConnectionError") 0 (by norm_num [samplePolicy])).2.1
  exact h (fun j hj1 hj2 => by simp_all [samplePolicy]) (by simp [samplePolicy])

/-- One failed call from a CLOSED breaker: the operation is invoked, the
failure count is incremented, the failure time is recorded, and the state
becomes OPEN exactly when the incremented count reaches the threshold. -/
theorem call_closed_fail (cb : CircuitBreaker) (t : Rat) (e : String)
    (h : cb.state = CircuitState.CLOSED) :
    ((cb.call t (CallOutcome.failure e : CallOutcome Unit)).invoked = true) ∧
    ((cb.call t (CallOutcome.failure e : CallOutcome Unit)).cb.failure_count
      = cb.failure_count + 1) ∧
    ((cb.call t (CallOutcome.failure e : CallOutcome Unit)).cb.last_failure_time = some t) ∧
    ((cb.call t (CallOutcome.failure e : CallOutcome Unit)).cb.config = cb.config) ∧
    ((cb.call t (CallOutcome.failure e : CallOutcome Unit)).cb.state
      = (if cb.config.failure_threshold ≤ cb.failure_count + 1
          then CircuitState.OPEN else CircuitState.CLOSED)) := by
  have hno : ¬ (cb.state = CircuitState.OPEN ∧ ¬ cb.should_attempt_reset t) := by simp [h]
  have hns : ¬ cb.state = CircuitState.OPEN := by simp [h]
  have hnh : ¬ cb.state = CircuitState.HALF_OPEN := by simp [h]
  refine ⟨?_, ?_, ?_, ?_, ?_⟩ <;>
    simp [CircuitBreaker.call, hno, hns, hnh, h, CircuitBreaker.on_failure, ge_iff_le] <;>
    split_ifs <;>
    simp_all

/-- Invariant of repeated failures from a fresh breaker: while the count is
below the threshold, the breaker stays CLOSED; the `k`-th failure brings the
count to `k`, and the state is OPEN exactly once a positive threshold has
been reached.  Proved for `k` up to the threshold. -/
theorem iterateFails_invariant (cfg : CircuitBreakerConfig) (t : Rat) (e : String) :
    ∀ k, k ≤ cfg.failure_threshold →
      (iterateFails (CircuitBreaker.init cfg) t e k).config = cfg ∧
      (iterateFails (CircuitBreaker.init cfg) t e k).failure_count = k ∧
      ((iterateFails (CircuitBreaker.init cfg) t e k).state
        = (if cfg.failure_threshold ≤ k ∧ 0 < k then CircuitState.OPEN
            else CircuitState.CLOSED)) ∧
      (0 < k → (iterateFails (CircuitBreaker.init cfg) t e k).last_failure_time = some t) := by
  intro k
  induction k with
  | zero =>
    intro _
    refine ⟨rfl, rfl, ?_, fun h0 => absurd h0 (by omega)⟩
    simp [iterateFails, CircuitBreaker.init]
  | succ k ih =>
    intro hk
    obtain ⟨ihcfg, ihcount, ihstate, _⟩ := ih (by omega)
    have hclosed : (iterateFails (CircuitBreaker.init cfg) t e k).state
        = CircuitState.CLOSED := by
      rw [ihstate, if_neg]
      omega
    have hstep := call_closed_fail (iterateFails (CircuitBreaker.init cfg) t e k) t e hclosed
    have hnext : iterateFails (CircuitBreaker.init cfg) t e (k + 1)
        = ((iterateFails (CircuitBreaker.init cfg) t e k).call t
            (CallOutcome.failure e : CallOutcome Unit)).cb := rfl
    rw [hnext]
    refine ⟨by rw [hstep.2.2.2.1, ihcfg], by rw [hstep.2.1, ihcount], ?_,
      fun _ => hstep.2.2.1⟩
    rw [hstep.2.2.2.2, ihcount, ihcfg]
    by_cases hc : cfg.failure_threshold ≤ k + 1
    · rw [if_pos hc, if_pos ⟨hc, by omega⟩]
    · rw [if_neg hc, if_neg (by omega)]

/-- A call against an OPEN breaker before the recovery timeout has elapsed
is rejected outright: `CircuitBreakerOpenError`, the operation is not
invoked, and the breaker is left unchanged. -/
theorem call_open_rejected (cb : CircuitBreaker) (t' tf : Rat) (o : CallOutcome Unit)
    (h : cb.state = CircuitState.OPEN) (hlf : cb.last_failure_time = some tf)
    (hlt : t' - tf < cb.config.recovery_timeout) :
    cb.call t' o = ⟨cb, CallResult.breakerOpen, false, none⟩ := by
  have hsr : cb.should_attempt_reset t' = false := by
    simp [CircuitBreaker.should_attempt_reset, hlf, not_le.mpr hlt]
  simp [CircuitBreaker.call, h, hsr]

/-- A call against an OPEN breaker after the recovery timeout has elapsed is
admitted with the breaker in HALF_OPEN (given a positive half-open cap). -/
theorem call_open_admitted (cb : CircuitBreaker) (t'' tf : Rat) (o : CallOutcome Unit)
    (h : cb.state = CircuitState.OPEN) (hlf : cb.last_failure_time = some tf)
    (hge : cb.config.recovery_timeout ≤ t'' - tf)
    (hmax : 0 < cb.config.half_open_max_calls) :
    ((cb.call t'' o).invoked = true) ∧
    ((cb.call t'' o).stateAtAttempt = some CircuitState.HALF_OPEN) := by
  have hsr : cb.should_attempt_reset t'' = true := by
    simp [CircuitBreaker.should_attempt_reset, hlf, hge]
  cases o <;>
    constructor <;>
    simp [CircuitBreaker.call, h, hsr, Nat.pos_iff_ne_zero.mp hmax, Nat.not_le.mpr hmax]

/-- C3: from a fresh CLOSED breaker with a positive failure threshold and a
positive half-open cap, exactly `failure_threshold` consecutive failed calls
(at time `t`) bring the state to OPEN — it is still CLOSED after any fewer —
and then a call before the recovery timeout is rejected with
`CircuitBreakerOpenError` without invoking the operation and without
changing the breaker, while a call once the timeout has elapsed is admitted
in the HALF_OPEN state. -/
theorem circuit_breaker_opens_after_threshold (cfg : CircuitBreakerConfig)
    (t t' t'' : Rat) (e : String) (o o' : CallOutcome Unit)
    (hthr : 0 < cfg.failure_threshold) (hhalf : 0 < cfg.half_open_max_calls)
    (hlt : t' - t < cfg.recovery_timeout) (hge : cfg.recovery_timeout ≤ t'' - t) :
    let cbN := iterateFails (CircuitBreaker.init cfg) t e cfg.failure_threshold
    (∀ k, k < cfg.failure_threshold →
      (iterateFails (CircuitBreaker.init cfg) t e k).state = CircuitState.CLOSED) ∧
    (cbN.state = CircuitState.OPEN) ∧
    (cbN.call t' o = ⟨cbN, CallResult.breakerOpen, false, none⟩) ∧
    ((cbN.call t'' o').invoked = true ∧
      (cbN.call t'' o').stateAtAttempt = some CircuitState.HALF_OPEN) := by
  intro cbN
  obtain ⟨hcfg, _, hstate, hlf⟩ :=
    iterateFails_invariant cfg t e cfg.failure_threshold le_rfl
  have hopen : cbN.state = CircuitState.OPEN := by
    rw [hstate, if_pos ⟨le_rfl, hthr⟩]
  have hlff : cbN.last_failure_time = some t := hlf hthr
  refine ⟨?_, hopen, ?_, ?_⟩
  · intro k hk
    obtain ⟨_, _, hst, _⟩ := iterateFails_invariant cfg t e k (by omega)
    rw [hst, if_neg]
    omega
  · exact call_open_rejected cbN t' t o hopen hlff (by rw [hcfg]; exact hlt)
  · exact call_open_admitted cbN t'' t o' hopen hlff (by rw [hcfg]; exact hge)
      (by rw [hcfg]; exact hhalf)

/-- C3 witness: the sample 3-failure configuration at concrete times. -/
theorem circuit_breaker_opens_after_threshold_witness :
    (iterateFails (CircuitBreaker.init sampleConfig) 0 "ConnectionError" 3).state
      = CircuitState.OPEN := by
  exact (circuit_breaker_opens_after_threshold sampleConfig 0 30 60 "ConnectionError"
    (CallOutcome.failure "ConnectionError") (CallOutcome.failure "ConnectionError")
    (by norm_num [sampleConfig]) (by norm_num [sampleConfig])
    (by norm_num [sampleConfig]) (by norm_num [sampleConfig])).2.1

end ResilientCore
